import Mathlib

/-
Verification of the bid-ingestion pipeline of the Go-AuctionHouse repository.

The embedding is a shallow one:
* machine integers and Go `time.Time` instants are modeled as `Int`
  (Unix-style instants; `time.Time.After` is strict `<` on instants);
* `float64` amounts are modeled as `Rat` (ordered field; JSON input cannot
  produce NaN, so ordered-field comparisons are faithful);
* the two mutex-protected cache maps of `BidRepository` are association
  lists with overwrite-by-shadowing semantics;
* each per-bid goroutine spawned by `CreateBidBatch` is modeled as one
  atomic step `processBid` (every map access in the Go code is under its
  own mutex, and the claims below are settled at this task granularity);
* the MongoDB collection and the auction repository are external
  collaborators, modeled by per-bid oracles (lookup result, insert result,
  the `time.Now()` instant observed by the task).
-/

namespace AuctionHouse

/-- Auction status enum from internal/entity/auction_entity (Active = 0,
Completed = 1 via iota). -/
inductive AuctionStatus where
  | Active
  | Completed
deriving DecidableEq

/-- The fields of the auction entity that `CreateBidBatch` consumes:
`FindAuctionById` exposes the current `Status` and the creation instant
`Timestamp` (the auction's start time). -/
structure Auction where
  id : String
  status : AuctionStatus
  timestamp : Int
deriving DecidableEq

/-- Bid entity from internal/entity/bid_entity. -/
structure Bid where
  id : String
  userId : String
  auctionId : String
  amount : Rat
  timestamp : Int
deriving DecidableEq

/-- Association-list lookup, the model of a Go map read `m[k]` with its
`ok` flag folded into `Option`. -/
def lookupA {α : Type} : List (String × α) → String → Option α
  | [], _ => none
  | (k, v) :: rest, key => if k = key then some v else lookupA rest key

/-- The mutable state of `BidRepository`: the two independently-locked
cache maps `auctionStatusMap` and `auctionEndTimeMap`. -/
structure RepoState where
  auctionStatusMap : List (String × AuctionStatus)
  auctionEndTimeMap : List (String × Int)
deriving DecidableEq

/-- The state `NewBidRepository` starts from: both cache maps empty. -/
def emptyRepo : RepoState := ⟨[], []⟩

/-- Read of `auctionStatusMap` (critical section 1 of the per-bid task). -/
def lookupStatus (st : RepoState) (k : String) : Option AuctionStatus :=
  lookupA st.auctionStatusMap k

/-- Read of `auctionEndTimeMap` (critical section 2 of the per-bid task). -/
def lookupEndTime (st : RepoState) (k : String) : Option Int :=
  lookupA st.auctionEndTimeMap k

/-- Write to `auctionStatusMap` (critical section 3 of the per-bid task). -/
def writeStatus (st : RepoState) (k : String) (v : AuctionStatus) : RepoState :=
  { st with auctionStatusMap := (k, v) :: st.auctionStatusMap }

/-- Write to `auctionEndTimeMap` (critical section 4 of the per-bid task). -/
def writeEndTime (st : RepoState) (k : String) (v : Int) : RepoState :=
  { st with auctionEndTimeMap := (k, v) :: st.auctionEndTimeMap }

/-- The observable way a per-bid task of `CreateBidBatch` ends. -/
inductive BidOutcome where
  | rejectedClosed
  | insertedHit
  | insertFailedHit
  | rejectedLookupFailed
  | rejectedNotActive
  | insertedMiss
  | insertFailedMiss
deriving DecidableEq

/-- Result of one per-bid task: its outcome, the repository state after it,
how many `FindAuctionById` calls it made, whether it called `InsertOne`,
and whether the insert succeeded. -/
structure TaskResult where
  outcome : BidOutcome
  state : RepoState
  lookups : Nat
  insertAttempted : Bool
  inserted : Bool
deriving DecidableEq

/-- The body of the goroutine spawned per bid by
`BidRepository.CreateBidBatch` (internal/infra/database/bid/create_bid.go,
lines 71-143), translated statement by statement.  `auctionInterval` is
`bd.auctionInterval`; `now` is the `time.Now()` the task observes on the
cache-hit branch; `lookupRes` is the outcome of `FindAuctionById` (`none`
for an error); `insertOk` is the outcome of `InsertOne`.  On a cache hit
(both maps have the auction id) the task rejects iff the cached status is
Completed or `now` is strictly after the cached end time (`time.After`),
otherwise inserts.  On a cache miss it rejects iff the lookup fails or the
status is not Active, otherwise writes the looked-up status, then the end
time `auction.Timestamp + auctionInterval`, then inserts.  The miss branch
performs no time check. -/
def processBid (auctionInterval : Int) (now : Int) (lookupRes : Option Auction)
    (insertOk : Bool) (st : RepoState) (bidValue : Bid) : TaskResult :=
  match lookupStatus st bidValue.auctionId, lookupEndTime st bidValue.auctionId with
  | some auctionStatus, some auctionEndTime =>
    if auctionStatus = AuctionStatus.Completed ∨ auctionEndTime < now then
      ⟨BidOutcome.rejectedClosed, st, 0, false, false⟩
    else if insertOk then
      ⟨BidOutcome.insertedHit, st, 0, true, true⟩
    else
      ⟨BidOutcome.insertFailedHit, st, 0, true, false⟩
  | _, _ =>
    match lookupRes with
    | none => ⟨BidOutcome.rejectedLookupFailed, st, 1, false, false⟩
    | some auctionEntity =>
      if auctionEntity.status ≠ AuctionStatus.Active then
        ⟨BidOutcome.rejectedNotActive, st, 1, false, false⟩
      else
        let st1 := writeStatus st bidValue.auctionId auctionEntity.status
        let st2 := writeEndTime st1 bidValue.auctionId
          (auctionEntity.timestamp + auctionInterval)
        if insertOk then
          ⟨BidOutcome.insertedMiss, st2, 1, true, true⟩
        else
          ⟨BidOutcome.insertFailedMiss, st2, 1, true, false⟩

/-- Concrete Active auction starting at instant 0, used in counterexamples. -/
def auctionA : Auction := ⟨"auction-1", AuctionStatus.Active, 0⟩

/-- Concrete bid whose submission timestamp 42 is at or after the computed
end time 0 + 10 = 10 of `auctionA`. -/
def bidLate : Bid := ⟨"bid-3", "user-1", "auction-1", 90, 42⟩

/-- Per-bid collaborator oracle: the `time.Now()` instant the task observes,
the outcome of `FindAuctionById` for that bid, and the outcome of
`InsertOne` for that bid. -/
structure BidOracle where
  now : Int
  lookupRes : Option Auction
  insertOk : Bool
deriving DecidableEq

/-- The fan-out of `CreateBidBatch`: one `processBid` task per bid, the
shared repository state threaded through (one admissible interleaving of
the concurrently spawned goroutines; each task is atomic here).  Every bid
of the batch is processed: no task outcome stops the iteration. -/
def runBatch (auctionInterval : Int) : RepoState → List (Bid × BidOracle) →
    RepoState × List TaskResult
  | st, [] => (st, [])
  | st, (b, o) :: rest =>
    let r := processBid auctionInterval o.now o.lookupRes o.insertOk st b
    let tail := runBatch auctionInterval r.state rest
    (tail.1, r :: tail.2)

/-- `BidRepository.CreateBidBatch`: spawns a task per bid, waits for all of
them (`wg.Wait`), and then on line 149 returns `nil` unconditionally — the
`Option String` error component of the result is always `none`. -/
def CreateBidBatch (auctionInterval : Int) (st : RepoState)
    (xs : List (Bid × BidOracle)) : Option String × RepoState × List TaskResult :=
  (none, runBatch auctionInterval st xs)

/-- Total number of `FindAuctionById` calls performed by a batch. -/
def totalLookups (rs : List TaskResult) : Nat :=
  (rs.map TaskResult.lookups).sum

/-- Total number of `InsertOne` calls performed by a batch. -/
def totalInsertAttempts (rs : List TaskResult) : Nat :=
  (rs.map fun r => if r.insertAttempted then 1 else 0).sum

/-- Repository states reachable from the empty state of `NewBidRepository`
by any sequence of per-bid tasks with arbitrary collaborator behaviour. -/
inductive RepoReach : RepoState → Prop
  | init : RepoReach emptyRepo
  | step (st : RepoState) (auctionInterval now : Int) (lookupRes : Option Auction)
      (insertOk : Bool) (b : Bid) : RepoReach st →
      RepoReach (processBid auctionInterval now lookupRes insertOk st b).state

/-- The three events the `select` of `triggerCreateRoutine` can wake on:
a bid delivered by `bidChannel` (`ok = true`), the receive reporting the
channel closed (`ok = false`), or `timer.C` firing. -/
inductive AggEvent where
  | recv (b : Bid)
  | closed
  | timer
deriving DecidableEq

/-- Atomic actions of the aggregator loop body, in program order.
`flushStart` is the call into `BidRepository.CreateBidBatch`; `flushEnd`
is that call returning, which by the `wg.Wait` on create_bid.go line 148
happens only after every per-bid task of the batch has completed.
`accept` is the appending of a received bid to `bidBatch`. -/
inductive TraceAct where
  | accept (b : Bid)
  | flushStart (batch : List Bid)
  | flushEnd (batch : List Bid)
  | timerReset
  | terminate
deriving DecidableEq

/-- Result of one iteration of the aggregator loop: the actions the
iteration performs in order, the value of `bidBatch` afterwards, and
whether the goroutine returned. -/
structure AggStepResult where
  acts : List TraceAct
  batch : List Bid
  terminated : Bool
deriving DecidableEq

/-- One iteration of the `for { select { ... } }` loop of
`triggerCreateRoutine` (create_bid_usecase.go lines 76-114), translated
case by case.  On `recv b`: append `b` to `bidBatch`; if the length now
reaches `maxBatchSize` (`>=` in the source), call `CreateBidBatch`
synchronously, set `bidBatch = nil`, reset the timer.  On `timer`: call
`CreateBidBatch` on the current batch unconditionally (even when empty),
set `bidBatch = nil`, reset the timer.  On `closed` (`ok = false`): call
`CreateBidBatch` on the remaining batch when it is non-empty, then return.
Because `CreateBidBatch` is invoked as a plain synchronous call ending in
`wg.Wait`, its `flushEnd` immediately follows its `flushStart` with no
other aggregator action in between. -/
def aggStep (maxBatchSize : Nat) (batch : List Bid) : AggEvent → AggStepResult
  | AggEvent.recv b =>
    let batch2 := batch ++ [b]
    if maxBatchSize ≤ batch2.length then
      ⟨[TraceAct.accept b, TraceAct.flushStart batch2, TraceAct.flushEnd batch2,
        TraceAct.timerReset], [], false⟩
    else
      ⟨[TraceAct.accept b], batch2, false⟩
  | AggEvent.timer =>
    ⟨[TraceAct.flushStart batch, TraceAct.flushEnd batch, TraceAct.timerReset],
      [], false⟩
  | AggEvent.closed =>
    if 0 < batch.length then
      ⟨[TraceAct.flushStart batch, TraceAct.flushEnd batch, TraceAct.terminate],
        [], true⟩
    else
      ⟨[TraceAct.terminate], [], true⟩

/-- The flat action trace of the aggregator loop over a sequence of events
(the loop stops consuming events once the goroutine has returned). -/
def aggRun (maxBatchSize : Nat) (batch : List Bid) : List AggEvent → List TraceAct
  | [] => []
  | e :: es =>
    let r := aggStep maxBatchSize batch e
    if r.terminated then r.acts
    else r.acts ++ aggRun maxBatchSize r.batch es

/-- Decides whether, somewhere in a trace, an `accept` occurs while a flush
is in flight (between a `flushStart` and the matching `flushEnd`); the
flag carries whether a flush is currently in flight. -/
def acceptWhileFlushing (inFlight : Bool) : List TraceAct → Bool
  | [] => false
  | TraceAct.accept _ :: ts => inFlight || acceptWhileFlushing inFlight ts
  | TraceAct.flushStart _ :: ts => acceptWhileFlushing true ts
  | TraceAct.flushEnd _ :: ts => acceptWhileFlushing false ts
  | TraceAct.timerReset :: ts => acceptWhileFlushing inFlight ts
  | TraceAct.terminate :: ts => acceptWhileFlushing inFlight ts

/-- Concrete bids used in the aggregator counterexample run. -/
def bidA : Bid := ⟨"bid-1", "user-1", "auction-1", 100, 50⟩

/-- Second concrete bid used in the aggregator counterexample run. -/
def bidB : Bid := ⟨"bid-2", "user-1", "auction-1", 120, 60⟩

/-- Observable state of `bidChannel` and its consumer goroutine: whether
the channel has been closed and whether the consumer goroutine (the
anonymous function of `triggerCreateRoutine`) has returned. -/
structure ChanSys where
  closed : Bool
  consumerReturned : Bool
deriving DecidableEq

/-- Initial state: `NewBidUseCase` creates the channel open and starts the
consumer goroutine, which enters its loop. -/
def ChanSys.init : ChanSys := ⟨false, false⟩

/-- The transitions the program can take on `bidChannel`, read off the
whole repository (the single occurrence of `close(bu.bidChannel)` is the
`defer` on create_bid_usecase.go line 70, inside the consumer goroutine
itself; `cmd/auction/main.go` contains no close and no shutdown hook):
`send` is `bu.bidChannel <- *bidEntity` in `CreateBid` (well-defined only
while the channel is open); `recvItem` is the loop receiving a value
(`ok = true`); `consumerExit` is the loop receiving `ok = false` — which
Go channel semantics allow only once the channel has been closed — after
which the goroutine runs the final drain, returns, and its deferred close
executes.  No transition closes the channel from the outside. -/
inductive ChanStep : ChanSys → ChanSys → Prop
  | send (s : ChanSys) : s.closed = false → ChanStep s s
  | recvItem (s : ChanSys) : s.consumerReturned = false → ChanStep s s
  | consumerExit (s : ChanSys) : s.closed = true → s.consumerReturned = false →
      ChanStep s ⟨true, true⟩

/-- States of the channel system reachable from process start. -/
inductive ChanReachable : ChanSys → Prop
  | init : ChanReachable ChanSys.init
  | step (s t : ChanSys) : ChanReachable s → ChanStep s t → ChanReachable t

/-- InternalError from internal/internal_error: a message and an error
kind string. -/
structure InternalError where
  message : String
  err : String
deriving DecidableEq

/-- Constructor `NewBadRequestError`. -/
def NewBadRequestError (message : String) : InternalError :=
  ⟨message, "bad_request"⟩

/-- Input DTO of the bid usecase (`BidInputDTO`). -/
structure BidInputDTO where
  userId : String
  auctionId : String
  amount : Rat
deriving DecidableEq

/-- Validation of a bid entity (`Bid.Validate` in
internal/entity/bid_entity): user id must be a valid UUID, auction id must
be a valid UUID, amount must be greater than 0; the first failing check
produces a bad-request error.  UUID validity (`uuid.Validate` of the
external google/uuid library) is a collaborator, passed as a predicate. -/
def Validate (validUUID : String → Bool) (b : Bid) : Option InternalError :=
  if validUUID b.userId = false then
    some (NewBadRequestError "user id is not a valid id")
  else if validUUID b.auctionId = false then
    some (NewBadRequestError "auction id is not a valid id")
  else if b.amount ≤ 0 then
    some (NewBadRequestError "amount must be greater than 0")
  else
    none

/-- Entity constructor `bid_entity.CreateBid`: builds the bid with a fresh
id (`uuid.New()`, passed as `newId`) and `time.Now()` (passed as `now`),
then validates it, returning either the error or the bid. -/
def BidEntity.CreateBid (validUUID : String → Bool) (newId : String) (now : Int)
    (userId auctionId : String) (amount : Rat) : Except InternalError Bid :=
  let bid : Bid := ⟨newId, userId, auctionId, amount, now⟩
  match Validate validUUID bid with
  | some e => Except.error e
  | none => Except.ok bid

/-- Observable result of one call to the ingestion gateway: the returned
value, the list of bids it pushed onto `bidChannel`, and the number of
persistence (repository) calls it made. -/
structure GatewayResult where
  result : Except InternalError Bid
  enqueued : List Bid
  persistCalls : Nat

/-- `BidUseCase.CreateBid` (create_bid_usecase.go lines 121-133): construct
the entity; on validation error return it with no side effect; otherwise
send the one bid to `bidChannel` and return nil immediately.  The function
body contains no repository call, so `persistCalls` is 0 on every path. -/
def BidUseCase.CreateBid (validUUID : String → Bool) (newId : String) (now : Int)
    (dto : BidInputDTO) : GatewayResult :=
  match BidEntity.CreateBid validUUID newId now dto.userId dto.auctionId dto.amount with
  | Except.error e => ⟨Except.error e, [], 0⟩
  | Except.ok b => ⟨Except.ok b, [b], 0⟩

/-- C1 counterexample: a bid whose submission time (42) is at or after the
auction's computed end time (start 0 + duration 10 = 10) is handed to the
per-bid task with both caches empty (a miss).  The lookup returns the
still-Active auction, and the task INSERTS the bid: the miss branch of
`CreateBidBatch` performs no time check at all, so the claimed rejection
does not happen. -/
theorem c1_counterexample :
    auctionA.timestamp + 10 ≤ bidLate.timestamp ∧
    lookupStatus emptyRepo bidLate.auctionId = none ∧
    lookupEndTime emptyRepo bidLate.auctionId = none ∧
    (processBid 10 42 (some auctionA) true emptyRepo bidLate).inserted = true ∧
    (processBid 10 42 (some auctionA) true emptyRepo bidLate).insertAttempted = true := by
  refine ⟨by decide, rfl, rfl, rfl, rfl⟩

/-- C1 amended: the time check exists only on the cache-hit branch, uses the
processing-time `now` rather than the bid's submission time, and is strict.
On a cache hit the task skips the insert exactly when the cached status is
Completed or `now` is strictly after the cached end time; on a cache miss
the task attempts the insert exactly when the lookup succeeded with an
Active auction, regardless of any time. -/
theorem c1_amended (auctionInterval now : Int) (lookupRes : Option Auction)
    (insertOk : Bool) (st : RepoState) (b : Bid) :
    (∀ s e, lookupStatus st b.auctionId = some s →
      lookupEndTime st b.auctionId = some e →
      ((processBid auctionInterval now lookupRes insertOk st b).insertAttempted = false ↔
        (s = AuctionStatus.Completed ∨ e < now))) ∧
    ((lookupStatus st b.auctionId = none ∨ lookupEndTime st b.auctionId = none) →
      ((processBid auctionInterval now lookupRes insertOk st b).insertAttempted = true ↔
        (∃ a, lookupRes = some a ∧ a.status = AuctionStatus.Active))) := by
  constructor
  · intro s e hs he
    simp only [processBid, hs, he]
    by_cases hclosed : s = AuctionStatus.Completed ∨ e < now
    · simp [hclosed]
    · cases insertOk <;> simp [hclosed]
  · intro hmiss
    have hsplit : (lookupStatus st b.auctionId = none ∧ True) ∨
        lookupEndTime st b.auctionId = none := by
      rcases hmiss with h | h
      · exact Or.inl ⟨h, trivial⟩
      · exact Or.inr h
    rcases hsplit with ⟨hs, -⟩ | he
    · cases he2 : lookupEndTime st b.auctionId with
      | none =>
        simp only [processBid, hs, he2]
        cases lookupRes with
        | none => simp
        | some a =>
          by_cases ha : a.status = AuctionStatus.Active
          · cases insertOk <;> simp [ha]
          · simp [ha]
      | some e =>
        simp only [processBid, hs, he2]
        cases lookupRes with
        | none => simp
        | some a =>
          by_cases ha : a.status = AuctionStatus.Active
          · cases insertOk <;> simp [ha]
          · simp [ha]
    · cases hs2 : lookupStatus st b.auctionId with
      | none =>
        simp only [processBid, hs2, he]
        cases lookupRes with
        | none => simp
        | some a =>
          by_cases ha : a.status = AuctionStatus.Active
          · cases insertOk <;> simp [ha]
          · simp [ha]
      | some s =>
        simp only [processBid, hs2, he]
        cases lookupRes with
        | none => simp
        | some a =>
          by_cases ha : a.status = AuctionStatus.Active
          · cases insertOk <;> simp [ha]
          · simp [ha]

/-- Witness for C1 amended at a concrete cache-hit state: status Active,
cached end time 10, processed at now = 20 (strictly after), so the insert
is skipped. -/
theorem c1_amended_witness :
    lookupStatus (writeEndTime (writeStatus emptyRepo "auction-1" AuctionStatus.Active)
        "auction-1" 10) "auction-1" = some AuctionStatus.Active ∧
    lookupEndTime (writeEndTime (writeStatus emptyRepo "auction-1" AuctionStatus.Active)
        "auction-1" 10) "auction-1" = some 10 ∧
    (processBid 10 20 none true
      (writeEndTime (writeStatus emptyRepo "auction-1" AuctionStatus.Active) "auction-1" 10)
      bidLate).insertAttempted = false := by
  refine ⟨rfl, rfl, ?_⟩
  have h := (c1_amended 10 20 none true
    (writeEndTime (writeStatus emptyRepo "auction-1" AuctionStatus.Active) "auction-1" 10)
    bidLate).1 AuctionStatus.Active 10 rfl rfl
  exact h.mpr (Or.inr (by decide))

/-- C2: for an Active auction absent from both caches, the first bid's task
performs exactly one `FindAuctionById` call, writes the status and the end
time (auction start + configured duration) into the two cache maps, and
inserts the bid; and any task that finds both entries present and the
auction open (cached status not Completed, now not strictly after the
cached end time) performs zero lookups. -/
theorem c2_first_bid_populates_cache_then_zero_lookups
    (auctionInterval now : Int) (a : Auction) (st : RepoState) (b : Bid)
    (hs : lookupStatus st b.auctionId = none)
    (he : lookupEndTime st b.auctionId = none)
    (ha : a.status = AuctionStatus.Active) :
    ((processBid auctionInterval now (some a) true st b).lookups = 1 ∧
      lookupStatus (processBid auctionInterval now (some a) true st b).state
        b.auctionId = some AuctionStatus.Active ∧
      lookupEndTime (processBid auctionInterval now (some a) true st b).state
        b.auctionId = some (a.timestamp + auctionInterval) ∧
      (processBid auctionInterval now (some a) true st b).inserted = true) ∧
    (∀ (now2 : Int) (lr2 : Option Auction) (ok2 : Bool) (st2 : RepoState) (b2 : Bid)
        (s : AuctionStatus) (e : Int),
      lookupStatus st2 b2.auctionId = some s →
      lookupEndTime st2 b2.auctionId = some e →
      s ≠ AuctionStatus.Completed → ¬ e < now2 →
      (processBid auctionInterval now2 lr2 ok2 st2 b2).lookups = 0) := by
  constructor
  · simp only [processBid, hs, he, ha]
    refine ⟨rfl, ?_, ?_, rfl⟩
    · simp [lookupStatus, writeEndTime, writeStatus, lookupA, ha]
    · simp [lookupEndTime, writeEndTime, writeStatus, lookupA]
  · intro now2 lr2 ok2 st2 b2 s e hs2 he2 hopen htime
    simp only [processBid, hs2, he2]
    have hcond : ¬ (s = AuctionStatus.Completed ∨ e < now2) := by
      intro h
      rcases h with h | h
      · exact hopen h
      · exact htime h
    cases ok2 <;> simp [hcond]

/-- Witness for C2 at a concrete input: empty caches, Active auction
starting at 0 with duration 10; then a second task on the populated cache
inside the open window. -/
theorem c2_witness :
    lookupStatus emptyRepo "auction-1" = none ∧
    (processBid 10 1 (some auctionA) true emptyRepo bidLate).lookups = 1 ∧
    lookupEndTime (processBid 10 1 (some auctionA) true emptyRepo bidLate).state
      "auction-1" = some 10 ∧
    (processBid 10 5 none true
      (processBid 10 1 (some auctionA) true emptyRepo bidLate).state bidLate).lookups = 0 := by
  have h := c2_first_bid_populates_cache_then_zero_lookups 10 1 auctionA emptyRepo
    bidLate rfl rfl rfl
  refine ⟨rfl, h.1.1, h.1.2.2.1, ?_⟩
  exact h.2 5 none true _ bidLate AuctionStatus.Active 10 h.1.2.1 h.1.2.2.1
    (by decide) (by decide)

/-- C7: `CreateBidBatch` returns no error for every batch, every starting
cache state and every behaviour of the collaborators, and every bid of the
batch gets its own task result (one per bid, in order): a per-bid failure
never aborts the processing of the other bids and never propagates. -/
theorem c7_batch_never_errors (auctionInterval : Int) (st : RepoState)
    (xs : List (Bid × BidOracle)) :
    (CreateBidBatch auctionInterval st xs).1 = none ∧
    (CreateBidBatch auctionInterval st xs).2.2.length = xs.length := by
  refine ⟨rfl, ?_⟩
  induction xs generalizing st with
  | nil => rfl
  | cons x rest ih =>
    simp only [CreateBidBatch, runBatch] at *
    simp [ih]

/-- C8: when the flush timer expires with an empty current batch, the
aggregator hands the empty batch to `CreateBidBatch` (and resets batch and
timer), and that call is a no-op downstream: it returns no error, leaves
the cache state unchanged, and performs zero `FindAuctionById` calls and
zero `InsertOne` calls. -/
theorem c8_empty_flush_noop (auctionInterval : Int) (st : RepoState)
    (maxBatchSize : Nat) :
    aggStep maxBatchSize [] AggEvent.timer =
      ⟨[TraceAct.flushStart [], TraceAct.flushEnd [], TraceAct.timerReset],
        [], false⟩ ∧
    CreateBidBatch auctionInterval st [] = (none, st, []) ∧
    totalLookups (CreateBidBatch auctionInterval st []).2.2 = 0 ∧
    totalInsertAttempts (CreateBidBatch auctionInterval st []).2.2 = 0 := by
  exact ⟨rfl, rfl, rfl, rfl⟩

/-- Helper: the shape of the state left by a per-bid task.  Either it is the
incoming state unchanged, or it is the incoming state with `Active` written
for the bid's auction id in the status map and some instant written in the
end-time map — because the miss branch returns before the writes whenever
the looked-up status is not Active, and the hit branch never writes. -/
theorem processBid_state_shape (auctionInterval now : Int)
    (lookupRes : Option Auction) (insertOk : Bool) (st : RepoState) (b : Bid) :
    (processBid auctionInterval now lookupRes insertOk st b).state = st ∨
    ∃ t, (processBid auctionInterval now lookupRes insertOk st b).state =
      writeEndTime (writeStatus st b.auctionId AuctionStatus.Active) b.auctionId t := by
  unfold processBid
  cases hst : lookupStatus st b.auctionId with
  | some s0 =>
    cases het : lookupEndTime st b.auctionId with
    | some e0 =>
      by_cases hclosed : s0 = AuctionStatus.Completed ∨ e0 < now
      · simp [hclosed]
      · cases insertOk <;> simp [hclosed]
    | none =>
      cases lookupRes with
      | none => simp
      | some a =>
        by_cases ha : a.status = AuctionStatus.Active
        · right
          refine ⟨a.timestamp + auctionInterval, ?_⟩
          cases insertOk <;> simp [ha]
        · simp [ha]
  | none =>
    cases lookupRes with
    | none => simp
    | some a =>
      by_cases ha : a.status = AuctionStatus.Active
      · right
        refine ⟨a.timestamp + auctionInterval, ?_⟩
        cases insertOk <;> simp [ha]
      · simp [ha]

/-- Helper: reading the status map through the two cache writes of the miss
branch: the end-time write never touches the status map, and the status
write shadows exactly the written key. -/
theorem lookupStatus_after_writes (st : RepoState) (k0 k : String)
    (v : AuctionStatus) (t : Int) :
    lookupStatus (writeEndTime (writeStatus st k0 v) k0 t) k =
      if k0 = k then some v else lookupStatus st k := by
  simp [lookupStatus, writeEndTime, writeStatus, lookupA]

/-- C9: status-cache invariant.  In every repository state reachable from
the empty state of `NewBidRepository` by per-bid tasks (the only code that
writes `auctionStatusMap`), every cached status value is `Active`; hence
the cache-hit test for a cached `Completed` status can never find one. -/
theorem c9_status_cache_only_active (st : RepoState) (hreach : RepoReach st) :
    (∀ k s, lookupStatus st k = some s → s = AuctionStatus.Active) ∧
    (∀ k, lookupStatus st k ≠ some AuctionStatus.Completed) := by
  have hmain : ∀ k s, lookupStatus st k = some s → s = AuctionStatus.Active := by
    induction hreach with
    | init =>
      intro k s hk
      simp [lookupStatus, emptyRepo, lookupA] at hk
    | step st0 auctionInterval now lookupRes insertOk b hr ih =>
      intro k s hk
      rcases processBid_state_shape auctionInterval now lookupRes insertOk st0 b with
        hsame | ⟨t, hw⟩
      · rw [hsame] at hk
        exact ih k s hk
      · rw [hw, lookupStatus_after_writes] at hk
        by_cases hkb : b.auctionId = k
        · rw [if_pos hkb] at hk
          exact (Option.some_inj.mp hk).symm
        · rw [if_neg hkb] at hk
          exact ih k s hk
  refine ⟨hmain, ?_⟩
  intro k hk
  exact AuctionStatus.noConfusion (hmain k AuctionStatus.Completed hk)

/-- Witness for C9: the state after one cache-miss task on an Active
auction is reachable, and its cached status for that auction is Active. -/
theorem c9_witness :
    lookupStatus (processBid 10 1 (some auctionA) true emptyRepo bidLate).state
      "auction-1" = some AuctionStatus.Active ∧
    (∀ k, lookupStatus (processBid 10 1 (some auctionA) true emptyRepo bidLate).state
      k ≠ some AuctionStatus.Completed) := by
  have hreach : RepoReach (processBid 10 1 (some auctionA) true emptyRepo bidLate).state :=
    RepoReach.step emptyRepo 10 1 (some auctionA) true bidLate RepoReach.init
  exact ⟨rfl, (c9_status_cache_only_active _ hreach).2⟩

/-- C3: on item arrival the bid is appended; if the batch then reaches the
configured maximum it is handed to the Batch Processor, the current batch
is reset to empty and the timer is reset; on timer expiry the current
batch is flushed whatever its size, reset to empty, and the timer reset. -/
theorem c3_aggregator_flush_triggers (maxBatchSize : Nat) (batch : List Bid) (b : Bid) :
    (maxBatchSize ≤ (batch ++ [b]).length →
      aggStep maxBatchSize batch (AggEvent.recv b) =
        ⟨[TraceAct.accept b, TraceAct.flushStart (batch ++ [b]),
          TraceAct.flushEnd (batch ++ [b]), TraceAct.timerReset], [], false⟩) ∧
    ((batch ++ [b]).length < maxBatchSize →
      aggStep maxBatchSize batch (AggEvent.recv b) =
        ⟨[TraceAct.accept b], batch ++ [b], false⟩) ∧
    (aggStep maxBatchSize batch AggEvent.timer =
      ⟨[TraceAct.flushStart batch, TraceAct.flushEnd batch, TraceAct.timerReset],
        [], false⟩) := by
  refine ⟨?_, ?_, rfl⟩
  · intro h
    have h2 : maxBatchSize ≤ batch.length + 1 := by simpa using h
    simp [aggStep, h2]
  · intro h
    have h2 : batch.length + 1 < maxBatchSize := by simpa using h
    simp [aggStep, h2]

/-- Witness for C3 at maximum batch size 2: a first arrival below the
threshold only appends, a second arrival reaches the threshold and
flushes. -/
theorem c3_witness :
    aggStep 2 [] (AggEvent.recv bidLate) = ⟨[TraceAct.accept bidLate], [bidLate], false⟩ ∧
    aggStep 2 [bidLate] (AggEvent.recv bidLate) =
      ⟨[TraceAct.accept bidLate, TraceAct.flushStart [bidLate, bidLate],
        TraceAct.flushEnd [bidLate, bidLate], TraceAct.timerReset], [], false⟩ := by
  have h1 := (c3_aggregator_flush_triggers 2 [] bidLate).2.1 (by decide)
  have h2 := (c3_aggregator_flush_triggers 2 [bidLate] bidLate).1 (by decide)
  exact ⟨h1, h2⟩

/-- C4 counterexample: with maximum batch size 1, two bids arrive.  The
first arrival triggers a non-final flush, and the actual trace shows the
Batch Processor completing that batch (`flushEnd [bidA]`) strictly before
the aggregator accepts the next item (`accept bidB`): the flush is a
synchronous call ending in `wg.Wait`, so the aggregator waits for
processor completion and never accepts an item while a flushed batch is
being processed. -/
theorem c4_counterexample :
    aggRun 1 [] [AggEvent.recv bidA, AggEvent.recv bidB] =
      [TraceAct.accept bidA, TraceAct.flushStart [bidA], TraceAct.flushEnd [bidA],
        TraceAct.timerReset, TraceAct.accept bidB, TraceAct.flushStart [bidB],
        TraceAct.flushEnd [bidB], TraceAct.timerReset] ∧
    acceptWhileFlushing false
      (aggRun 1 [] [AggEvent.recv bidA, AggEvent.recv bidB]) = false := by
  exact ⟨rfl, rfl⟩

/-- C4 amended: on every flush, final or not, the aggregator calls the
Batch Processor synchronously and resumes its loop only after the
processor's fan-in barrier returns; in no run does it accept an item from
the ingestion queue while a flushed batch is still being processed. -/
theorem c4_flush_is_synchronous (maxBatchSize : Nat) (batch : List Bid)
    (events : List AggEvent) :
    acceptWhileFlushing false (aggRun maxBatchSize batch events) = false := by
  induction events generalizing batch with
  | nil => rfl
  | cons e es ih =>
    cases e with
    | recv b =>
      by_cases h : maxBatchSize ≤ (batch ++ [b]).length
      · simp only [aggRun, aggStep, h, if_pos, if_neg]
        simp [acceptWhileFlushing, ih]
      · simp only [aggRun, aggStep, if_neg h]
        simp [acceptWhileFlushing, ih]
    | timer =>
      simp only [aggRun, aggStep]
      simp [acceptWhileFlushing, ih]
    | closed =>
      by_cases h : 0 < batch.length
      · simp only [aggRun, aggStep, h, if_pos]
        simp [acceptWhileFlushing]
      · simp only [aggRun, aggStep, if_neg h]
        simp [acceptWhileFlushing]

/-- Helper invariant: in every reachable state the channel is still open
and the consumer goroutine is still looping — a close would require the
consumer to have returned, and the consumer returns only after observing
the channel closed. -/
theorem chanSys_invariant (s : ChanSys) (h : ChanReachable s) :
    s.closed = false ∧ s.consumerReturned = false := by
  induction h with
  | init => exact ⟨rfl, rfl⟩
  | step s t hr hstep ih =>
    cases hstep with
    | send hopen => exact ih
    | recvItem hloop => exact ih
    | consumerExit hclosed hloop =>
      rw [ih.1] at hclosed
      exact Bool.noConfusion hclosed

/-- C5 (supporting theorem for the code bug): in every reachable state of
the program the ingestion channel is still open — the code never closes
the queue, at shutdown or otherwise, so the drain flush guaranteed by the
claim never runs and a pending bid is lost when the process dies. -/
theorem c5_queue_never_closed (s : ChanSys) (h : ChanReachable s) :
    s.closed = false := by
  exact (chanSys_invariant s h).1

/-- Witness for C5 at the initial state. -/
theorem c5_witness : ChanSys.init.closed = false := by
  exact c5_queue_never_closed ChanSys.init ChanReachable.init

/-- C10: the queue-closed drain branch is unreachable and the aggregator
loop never terminates: in every reachable state the consumer goroutine has
not returned, and the channel is not closed, so the `ok = false` branch
(which requires a closed channel) can never be taken. -/
theorem c10_drain_branch_unreachable (s : ChanSys) (h : ChanReachable s) :
    s.consumerReturned = false ∧ s.closed = false ∧
    ∀ t : ChanSys, ChanStep s t → t.consumerReturned = false := by
  have hinv := chanSys_invariant s h
  refine ⟨hinv.2, hinv.1, ?_⟩
  intro t hstep
  cases hstep with
  | send hopen => exact hinv.2
  | recvItem hloop => exact hinv.2
  | consumerExit hclosed hloop =>
    rw [hinv.1] at hclosed
    exact Bool.noConfusion hclosed

/-- Witness for C10 at the initial state. -/
theorem c10_witness :
    ChanSys.init.consumerReturned = false ∧ ChanSys.init.closed = false := by
  have h := c10_drain_branch_unreachable ChanSys.init ChanReachable.init
  exact ⟨h.1, h.2.1⟩

/-- C6: a malformed submission (invalid user UUID, invalid auction UUID, or
amount not greater than 0) yields a validation error and no enqueue;
otherwise exactly one bid is enqueued and the call returns success, with
zero persistence calls on every path. -/
theorem c6_gateway_validation (validUUID : String → Bool) (newId : String)
    (now : Int) (dto : BidInputDTO) :
    (¬ (validUUID dto.userId = true ∧ validUUID dto.auctionId = true ∧
        0 < dto.amount) →
      (∃ e, (BidUseCase.CreateBid validUUID newId now dto).result = Except.error e) ∧
      (BidUseCase.CreateBid validUUID newId now dto).enqueued = []) ∧
    ((validUUID dto.userId = true ∧ validUUID dto.auctionId = true ∧
        0 < dto.amount) →
      (BidUseCase.CreateBid validUUID newId now dto).result =
        Except.ok ⟨newId, dto.userId, dto.auctionId, dto.amount, now⟩ ∧
      (BidUseCase.CreateBid validUUID newId now dto).enqueued =
        [⟨newId, dto.userId, dto.auctionId, dto.amount, now⟩]) ∧
    (BidUseCase.CreateBid validUUID newId now dto).persistCalls = 0 := by
  refine ⟨?_, ?_, ?_⟩
  · intro hbad
    by_cases hu : validUUID dto.userId = true
    · by_cases ha : validUUID dto.auctionId = true
      · have ham : ¬ 0 < dto.amount := by
          intro h
          exact hbad ⟨hu, ha, h⟩
        have ham2 : dto.amount ≤ 0 := le_of_not_lt ham
        simp [BidUseCase.CreateBid, BidEntity.CreateBid, Validate, hu, ha, ham2]
      · have ha2 : validUUID dto.auctionId = false := by
          cases h : validUUID dto.auctionId with
          | false => rfl
          | true => exact absurd h ha
        simp [BidUseCase.CreateBid, BidEntity.CreateBid, Validate, hu, ha2]
    · have hu2 : validUUID dto.userId = false := by
        cases h : validUUID dto.userId with
        | false => rfl
        | true => exact absurd h hu
      simp [BidUseCase.CreateBid, BidEntity.CreateBid, Validate, hu2]
  · intro hgood
    obtain ⟨hu, ha, ham⟩ := hgood
    have ham2 : ¬ dto.amount ≤ 0 := not_le_of_lt ham
    simp [BidUseCase.CreateBid, BidEntity.CreateBid, Validate, hu, ha, ham2]
  · cases hres : BidEntity.CreateBid validUUID newId now dto.userId dto.auctionId
      dto.amount with
    | error e => simp [BidUseCase.CreateBid, hres]
    | ok b => simp [BidUseCase.CreateBid, hres]

/-- Witness for C6: a rejected submission with amount 0 enqueues nothing,
and an accepted one enqueues exactly one bid. -/
theorem c6_witness :
    ((BidUseCase.CreateBid (fun _ => true) "id-1" 7
        ⟨"user-1", "auction-1", 0⟩).enqueued = [] ∧
      (∃ e, (BidUseCase.CreateBid (fun _ => true) "id-1" 7
        ⟨"user-1", "auction-1", 0⟩).result = Except.error e)) ∧
    (BidUseCase.CreateBid (fun _ => true) "id-1" 7
        ⟨"user-1", "auction-1", 25⟩).enqueued =
      [⟨"id-1", "user-1", "auction-1", 25, 7⟩] := by
  have hbad := (c6_gateway_validation (fun _ => true) "id-1" 7
    ⟨"user-1", "auction-1", 0⟩).1 (by simp)
  have hgood := ((c6_gateway_validation (fun _ => true) "id-1" 7
    ⟨"user-1", "auction-1", 25⟩).2.1 ⟨rfl, rfl, by norm_num⟩).2
  exact ⟨⟨hbad.2, hbad.1⟩, hgood⟩

end AuctionHouse
